import Mathlib

/-!
Shallow embedding of the recommendation core of the `496bitirme` repository
(`backend/recommendations/scoring_service.py`, `backend/recommendations/trend_analyzer.py`,
`backend/recommendations/models.py`, `backend/user/models.py`), together with
theorems settling the specification claims about it.

Floats are modelled by real numbers; database distances, ratings and
tag weights (which only ever feed comparisons or exact rational arithmetic before
being cast into a score) are modelled by rationals; timestamps by integer
seconds; UUID keys by naturals.
-/

namespace Recs

/-! ## Generic stable sorting (model of Python `sorted` / `list.sort`)

Python sorting is stable.  `insertAscBy lt` inserts an element after all
already-placed elements it is not strictly below, so folding a list from the
left gives a stable ascending sort; `insertDescBy gt` is the stable descending
analogue (`reverse=True`). -/

def insertAscBy {α : Type} (lt : α → α → Bool) (x : α) : List α → List α
  | [] => [x]
  | y :: ys => if lt x y then x :: y :: ys else y :: insertAscBy lt x ys

def sortAscBy {α : Type} (lt : α → α → Bool) (l : List α) : List α :=
  l.foldl (fun acc x => insertAscBy lt x acc) []

def insertDescBy {α : Type} (gt : α → α → Bool) (x : α) : List α → List α
  | [] => [x]
  | y :: ys => if gt x y then x :: y :: ys else y :: insertDescBy gt x ys

def sortDescBy {α : Type} (gt : α → α → Bool) (l : List α) : List α :=
  l.foldl (fun acc x => insertDescBy gt x acc) []

/-! ## Data model -/

/-- Timestamps (whole seconds) are modelled as integers. -/
abbrev Time := ℤ

/-- A Python dict `tag -> weight` (`UserProfile.preferences_vector`), modelled as an
association list in insertion order with unique keys. -/
abbrev PrefVector := List (String × ℚ)

/-- POI record (`locations/models.py`), restricted to the fields the scoring core reads. -/
structure POI where
  id : ℕ
  name : String
  latitude : ℚ
  longitude : ℚ
  category : String
  average_rating : ℚ
  tags : List String
  deriving DecidableEq, Repr

/-- A `BlacklistedPOI` row (`recommendations/models.py`): one entry per POI. -/
structure BlacklistEntry where
  poiId : ℕ
  reason : String
  created_at : Time
  expires_at : Time
  deriving DecidableEq, Repr

/-- A blacklist entry is live at `now` when it has not yet expired. -/
def BlacklistEntry.isLive (now : Time) (e : BlacklistEntry) : Prop :=
  now < e.expires_at

/-- An entry is expired exactly when `expires_at <= now`
(the filter used by `TrendAnalyzer.cleanup_expired_blacklist`). -/
def BlacklistEntry.isExpired (now : Time) (e : BlacklistEntry) : Prop :=
  e.expires_at ≤ now

instance (now : Time) (e : BlacklistEntry) : Decidable (e.isLive now) := by
  unfold BlacklistEntry.isLive; infer_instance

instance (now : Time) (e : BlacklistEntry) : Decidable (e.isExpired now) := by
  unfold BlacklistEntry.isExpired; infer_instance

/-- Model of `ContextDTO` (`recommendations/dtos.py`), without the unused `time_of_day`. -/
structure ContextDTO where
  latitude : ℚ
  longitude : ℚ
  is_open_only : Bool := true
  radius_meters : ℚ := 5000
  max_results : ℕ := 10
  deriving DecidableEq, Repr

/-- Model of `ScoredPOI` (`recommendations/dtos.py`): a candidate with its score breakdown. -/
structure ScoredPOI where
  poi_id : ℕ
  poi_name : String
  latitude : ℚ
  longitude : ℚ
  category : String
  average_rating : ℚ
  final_score : ℝ
  similarity_score : ℝ
  distance_score : ℝ
  rating_score : ℝ
  distance_meters : Option ℚ
  tags : List String

/-! ## SimilarityScorer (`ScoringService.calculate_similarity`) -/

/-- Python `sum(u * p for u, p in zip(user_vec, poi_vec))`. -/
noncomputable def dotList (a b : List ℝ) : ℝ :=
  (List.zipWith (· * ·) a b).sum

/-- Python `math.sqrt(sum(x ** 2 for x in v))`. -/
noncomputable def sqNorm (l : List ℝ) : ℝ :=
  Real.sqrt ((l.map fun x => x ^ 2).sum)

/-- Model of `ScoringService.calculate_similarity`: cosine similarity of two float lists,
truncated to the shorter length, 0.0 on an empty or zero-magnitude input,
clamped into `[0, 1]`. -/
noncomputable def calculate_similarity (user_vec poi_vec : List ℝ) : ℝ :=
  if user_vec = [] ∨ poi_vec = [] then 0
  else
    let n := min user_vec.length poi_vec.length
    let u := user_vec.take n
    let p := poi_vec.take n
    if sqNorm u = 0 ∨ sqNorm p = 0 then 0
    else max 0 (min 1 (dotList u p / (sqNorm u * sqNorm p)))

/-! ## Fixed-dimension projection vectors (`_get_user_vector`, `_get_poi_vector`) -/

/-- The constant `ScoringService.vector_dimension`. -/
def vector_dimension : ℕ := 100

/-- Writing values into a zero-initialised length-`n` buffer at positions `0, 1, ...`:
the written prefix followed by the remaining zeroes. -/
def padListQ (n : ℕ) (l : List ℚ) : List ℚ :=
  l.take n ++ List.replicate (n - l.length) 0

/-- Python `max(d.values())` for a non-empty dict (`1` returned on the empty dict,
a case the caller has already excluded). -/
def maxWeight : PrefVector → ℚ
  | [] => 1
  | p :: ps => ps.foldl (fun m q => max m q.2) p.2

/-- Rational skeleton of `ScoringService._get_user_vector`: a zero vector of
dimension 100 for an empty preferences dict; otherwise the tag weights in
key-sorted order, each divided by the maximum weight (1 if that maximum is 0),
written positionally into a 100-dimensional zero vector. -/
def userVectorQ (prefs : PrefVector) : List ℚ :=
  if prefs.isEmpty then List.replicate vector_dimension 0
  else
    let maxW0 := maxWeight prefs
    let maxW := if maxW0 = 0 then 1 else maxW0
    padListQ vector_dimension
      ((sortAscBy (fun a b => decide (a.1 < b.1)) prefs).map fun p => p.2 / maxW)

/-- Rational skeleton of `ScoringService._get_poi_vector`: each of the first 100
tags contributes `1/len(tags)` at its own index of a 100-dimensional zero vector. -/
def poiVectorQ (tags : List String) : List ℚ :=
  if tags.isEmpty then List.replicate vector_dimension 0
  else padListQ vector_dimension (List.replicate tags.length (1 / (tags.length : ℚ)))

/-- Cast a rational vector into the real vector handed to `calculate_similarity`. -/
noncomputable def ratListToReal (l : List ℚ) : List ℝ :=
  l.map fun q : ℚ => (q : ℝ)

/-- Model of `ScoringService._get_user_vector`. -/
noncomputable def getUserVector (prefs : PrefVector) : List ℝ :=
  ratListToReal (userVectorQ prefs)

/-- Model of `ScoringService._get_poi_vector`. -/
noncomputable def getPoiVector (tags : List String) : List ℝ :=
  ratListToReal (poiVectorQ tags)

/-! ## DistanceDecay (`ScoringService._calculate_distance_decay`) -/

/-- Model of `ScoringService._calculate_distance_decay`: `1.0` on a missing, zero
(Python falsy) or negative distance, else `max(0, exp(-d/1000))`. -/
noncomputable def calculate_distance_decay (distance_meters : Option ℝ) : ℝ :=
  match distance_meters with
  | none => 1
  | some d => if d = 0 ∨ d < 0 then 1 else max 0 (Real.exp (-d / 1000))

/-! ## ScoringEngine (`ScoringService.compute_score`, `generate_recommendations`) -/

/-- Scoring weights; the defaults are the `ScoringService.__init__` defaults. -/
structure Weights where
  interest : ℝ := 0.5
  distance : ℝ := 0.2
  rating : ℝ := 0.3

/-- The default-constructed `ScoringService()` weights used by the views. -/
def defaultWeights : Weights := {}

/-- Model of `ScoringService.compute_score`: returns
`(final_score, similarity_score, distance_score, rating_score)`.
The rating term is `average_rating / 5` guarded by Python truthiness, the distance
term is the decay guarded by Python truthiness of the distance argument. -/
noncomputable def compute_score (w : Weights) (prefs : PrefVector) (poi : POI)
    (distance : Option ℚ) : ℝ × ℝ × ℝ × ℝ :=
  let similarity_score := calculate_similarity (getUserVector prefs) (getPoiVector poi.tags)
  let rating_score : ℝ := if poi.average_rating ≠ 0 then (poi.average_rating : ℝ) / 5 else 0
  let distance_score : ℝ :=
    match distance with
    | none => 1
    | some d => if d = 0 then 1 else calculate_distance_decay (some (d : ℝ))
  let final_score :=
    similarity_score * w.interest + rating_score * w.rating + distance_score * w.distance
  (final_score, similarity_score, distance_score, rating_score)

/-- The queryable store behind `generate_recommendations`: every POI annotated with
its GIS distance (in meters) to the context's user point, plus the blacklist table. -/
structure Store where
  pois : List (POI × ℚ)
  blacklist : List BlacklistEntry

/-- Whether a `BlacklistedPOI` row for this POI exists
(the `exclude(blacklist_entry__isnull=False)` join test: expiry is not consulted). -/
def hasBlacklistEntry (bl : List BlacklistEntry) (poiId : ℕ) : Bool :=
  bl.any fun e => e.poiId = poiId

/-- The key comparison of `scored_pois.sort(key=lambda x: x.final_score, reverse=True)`. -/
noncomputable def scoreGT (a b : ScoredPOI) : Bool :=
  decide (b.final_score < a.final_score)

/-- Python `list.sort(key=lambda x: x.final_score, reverse=True)`: stable descending sort. -/
noncomputable def sortByScoreDesc (l : List ScoredPOI) : List ScoredPOI :=
  sortDescBy scoreGT l

/-- Steps 1–3 of `generate_recommendations`: the radius filter, the blacklist
exclusion (the `POI` model has no `is_open` field, so the open-only branch never
filters), and per-candidate scoring into `ScoredPOI` values. -/
noncomputable def scoredCandidates (w : Weights) (prefs : PrefVector) (ctx : ContextDTO)
    (store : Store) : List ScoredPOI :=
  let candidates := store.pois.filter fun pd =>
    decide (pd.2 ≤ ctx.radius_meters) && ! hasBlacklistEntry store.blacklist pd.1.id
  candidates.map fun pd =>
    let s := compute_score w prefs pd.1 (some pd.2)
    { poi_id := pd.1.id
      poi_name := pd.1.name
      latitude := pd.1.latitude
      longitude := pd.1.longitude
      category := pd.1.category
      average_rating := pd.1.average_rating
      final_score := s.1
      similarity_score := s.2.1
      distance_score := s.2.2.1
      rating_score := s.2.2.2
      distance_meters := some pd.2
      tags := pd.1.tags }

/-- Model of `ScoringService.generate_recommendations`: score the filtered candidates, sort
by `final_score` descending (stable), truncate to `max_results`. -/
noncomputable def generate_recommendations (w : Weights) (prefs : PrefVector)
    (ctx : ContextDTO) (store : Store) : List ScoredPOI :=
  (sortByScoreDesc (scoredCandidates w prefs ctx store)).take ctx.max_results

/-! ## PreferenceUpdater (`ScoringService.update_user_vector`, `UserProfile.update_vector`) -/

/-- Model of `InteractionType` (`recommendations/models.py`): a closed set of six values. -/
inductive InteractionType where
  | VIEW | LIKE | SHARE | VISIT | CLICK | CHECK_IN
  deriving DecidableEq, Repr

/-- The `weight_map` of `ScoringService.update_user_vector` (a total map: the
`.get(interaction, 0.1)` default is unreachable on the closed enum). -/
def interactionWeight : InteractionType → ℚ
  | .VIEW => 0.1
  | .LIKE => 0.3
  | .SHARE => 0.4
  | .VISIT => 0.5
  | .CLICK => 0.2
  | .CHECK_IN => 0.6

/-- An `Interaction` row: user, POI, type, creation time, and the calendar month
of that time (the `timestamp.month` accessor of the datetime library). -/
structure Interaction where
  userId : ℕ
  poiId : ℕ
  interaction_type : InteractionType
  timestamp : Time
  month : ℕ
  deriving DecidableEq, Repr

/-- Model of `UserProfile` (`user/models.py`), restricted to what the updater touches. -/
structure UserProfile where
  id : ℕ
  preferences_vector : PrefVector
  deriving DecidableEq, Repr

/-- Model of `UserProfile.update_vector` from `user/models.py`.  Its entire body in the
source is `return  # TODO:`, so the preferences vector is returned unchanged:
the mutation the docstring of `ScoringService.update_user_vector` promises is
unimplemented. -/
def UserProfile.update_vector (prefs : PrefVector) (_tag : String) (_weight : ℚ) : PrefVector :=
  prefs

/-- What the spec says `update_vector` should do (`spec.md` §4.4): add the increment
to the tag's weight, creating the entry at the increment if absent. -/
def spec_update_vector (prefs : PrefVector) (tag : String) (weight : ℚ) : PrefVector :=
  if prefs.any (fun p => p.1 = tag) then
    prefs.map fun p => if p.1 = tag then (p.1, p.2 + weight) else p
  else prefs ++ [(tag, weight)]

/-- Weight of a tag in a preferences dict (0 when absent). -/
def vecWeight (prefs : PrefVector) (tag : String) : ℚ :=
  match prefs.find? (fun p => p.1 = tag) with
  | some p => p.2
  | none => 0

/-- The database state `update_user_vector` reads. -/
structure UserStore where
  users : List UserProfile
  interactions : List Interaction
  poiTags : ℕ → List String

/-- Error kinds of the spec's §7 (what a failure surfaced to the caller would be). -/
inductive RecError where
  | invalidInput (msg : String)
  | notFound (msg : String)
  | storeUnavailable (msg : String)
  deriving DecidableEq, Repr

/-- Model of `ScoringService.update_user_vector`.  The user lookup failure is caught,
printed and swallowed (`except UserProfile.DoesNotExist: ...; return`), the most
recent interaction of the requested type is fetched, and each of its POI's tags is
passed to the `UserProfile.update_vector` stub; nothing is ever saved, so the
returned state's users always carry their original vectors.  The returned
`Except` records what the Python caller observes: every path returns normally. -/
def update_user_vector (st : UserStore) (user_id : ℕ) (interaction : InteractionType) :
    Except RecError Unit × UserStore :=
  match st.users.find? (fun u => u.id = user_id) with
  | none => (Except.ok (), st)
  | some user_profile =>
    let recent_interactions :=
      (sortDescBy (fun a b => decide (a.timestamp > b.timestamp))
        (st.interactions.filter fun i =>
          decide (i.userId = user_profile.id) && decide (i.interaction_type = interaction))).take 1
    match recent_interactions with
    | [] => (Except.ok (), st)
    | recent :: _ =>
      let poi_tags := st.poiTags recent.poiId
      if poi_tags.isEmpty then (Except.ok (), st)
      else
        let weight_increment := interactionWeight interaction
        let _final_vector := poi_tags.foldl
          (fun v tag => UserProfile.update_vector v tag weight_increment)
          user_profile.preferences_vector
        (Except.ok (), st)

/-! ## TrendAnalyzer (`trend_analyzer.py`) -/

/-- The constant `TrendAnalyzer.CACHE_TTL` (seconds). -/
def CACHE_TTL : ℤ := 3600

/-- A `TrendingList` row: cached trending POI ids for a geohash. -/
structure TrendingList where
  geohash : String
  pois : List ℕ
  updated_at : Time
  deriving DecidableEq, Repr

/-- Database state read and written by `get_trending_now`.  `inArea gh pid` is the
external geohash bounding-box membership test (`location__within` of the decoded
geohash polygon). -/
structure TrendState where
  pois : List POI
  inArea : String → ℕ → Bool
  interactions : List Interaction
  trending : List TrendingList

/-- Number of interactions of a POI with `timestamp >= since`
(the filtered-join `Count('interactions')` annotation). -/
def recentCount (interactions : List Interaction) (pid : ℕ) (since : Time) : ℕ :=
  (interactions.filter fun i => decide (i.poiId = pid) && decide (since ≤ i.timestamp)).length

/-- Upsert semantics of Django `update_or_create` keyed by geohash: replace the row with
this geohash, or append a new one. -/
def upsertTrending (ts : List TrendingList) (gh : String) (e : TrendingList) :
    List TrendingList :=
  if ts.any (fun t => t.geohash = gh) then
    ts.map fun t => if t.geohash = gh then e else t
  else ts ++ [e]

/-- Steps 2–4 of `get_trending_now` (the cache-miss path): POIs in the area with
an interaction in the last 24 hours, ranked by that interaction count descending,
truncated to 20, cached under the geohash (with `updated_at = now`), and returned
in ranked order. -/
def computeTrending (st : TrendState) (now : Time) (gh : String) :
    List POI × TrendState :=
  let last_24h := now - 24 * 3600
  let candidates := st.pois.filter fun p =>
    st.inArea gh p.id && decide (0 < recentCount st.interactions p.id last_24h)
  let ranked := (sortDescBy
    (fun a b => decide (recentCount st.interactions b.id last_24h <
      recentCount st.interactions a.id last_24h)) candidates).take 20
  let poi_ids := ranked.map (·.id)
  let entry : TrendingList := { geohash := gh, pois := poi_ids, updated_at := now }
  (ranked, { st with trending := upsertTrending st.trending gh entry })

/-- Model of `TrendAnalyzer.get_trending_now`.  On a cached entry younger than the TTL it
returns `POI.objects.filter(id__in=cached.pois)` — the POI table filtered by id
membership, in table order, with no ordering applied and no cache write;
otherwise it recomputes and upserts the cache. -/
def get_trending_now (st : TrendState) (now : Time) (gh : String) :
    List POI × TrendState :=
  match st.trending.find? (fun t => t.geohash = gh) with
  | some cached =>
    if now - cached.updated_at < CACHE_TTL then
      (st.pois.filter fun p => cached.pois.contains p.id, st)
    else computeTrending st now gh
  | none => computeTrending st now gh

/-! ## Seasonal analysis (`TrendAnalyzer.analyze_seasonal_trends`) -/

/-- The four seasons, in the insertion order of the `season_counts` dict. -/
inductive Season where
  | SPRING | SUMMER | FALL | WINTER
  deriving DecidableEq, Repr

/-- Month-to-season bucketing of `analyze_seasonal_trends` (the `else` branch
collects December–February). -/
def seasonOfMonth (m : ℕ) : Season :=
  if m = 3 ∨ m = 4 ∨ m = 5 then .SPRING
  else if m = 6 ∨ m = 7 ∨ m = 8 then .SUMMER
  else if m = 9 ∨ m = 10 ∨ m = 11 then .FALL
  else .WINTER

/-- Position of a season in the fixed iteration order Spring, Summer, Fall, Winter. -/
def seasonIdx : Season → ℕ
  | .SPRING => 0
  | .SUMMER => 1
  | .FALL => 2
  | .WINTER => 3

/-- The `season_counts` dict. -/
structure SeasonCounts where
  spring : ℕ := 0
  summer : ℕ := 0
  fall : ℕ := 0
  winter : ℕ := 0
  deriving DecidableEq, Repr

/-- Read one counter. -/
def SeasonCounts.get (c : SeasonCounts) : Season → ℕ
  | .SPRING => c.spring
  | .SUMMER => c.summer
  | .FALL => c.fall
  | .WINTER => c.winter

/-- The increment `season_counts[season] += 1`. -/
def bumpSeason (c : SeasonCounts) : Season → SeasonCounts
  | .SPRING => { c with spring := c.spring + 1 }
  | .SUMMER => { c with summer := c.summer + 1 }
  | .FALL => { c with fall := c.fall + 1 }
  | .WINTER => { c with winter := c.winter + 1 }

/-- The counting loop over a POI's interaction months. -/
def seasonCounts (months : List ℕ) : SeasonCounts :=
  months.foldl (fun c m => bumpSeason c (seasonOfMonth m)) {}

/-- Python `max(season_counts, key=season_counts.get)`: iterate the keys in dict
insertion order (SPRING, SUMMER, FALL, WINTER) keeping the first maximal one —
a later key replaces the current best only when strictly greater. -/
def peak_season (c : SeasonCounts) : Season :=
  [Season.SUMMER, Season.FALL, Season.WINTER].foldl
    (fun best s => if c.get best < c.get s then s else best) Season.SPRING

/-- Database state of the seasonal batch job: every POI id, the months of each
POI's interactions, and the `SeasonalMetadata` table (counters plus peak label). -/
structure SeasonalState where
  poiIds : List ℕ
  interactionMonths : ℕ → List ℕ
  metadata : ℕ → Option (SeasonCounts × Season)

/-- Model of `TrendAnalyzer.analyze_seasonal_trends`: for every POI with at least one
interaction, recompute the four counters and the peak season from all of its
interactions and upsert its `SeasonalMetadata` row; POIs without interactions
are skipped (`continue`), leaving any previous row in place. -/
def analyze_seasonal_trends (st : SeasonalState) : SeasonalState :=
  { st with metadata := fun pid =>
      if pid ∈ st.poiIds ∧ ¬(st.interactionMonths pid).isEmpty then
        some (seasonCounts (st.interactionMonths pid),
          peak_season (seasonCounts (st.interactionMonths pid)))
      else st.metadata pid }

/-! ## Spec-side similarity (for the refinement claim C4) -/

/-- Weight of a tag in a sparse mapping, 0 when absent (spec reading). -/
def lookupWeight (m : List (String × ℚ)) (tag : String) : ℚ :=
  match m.find? (fun p => p.1 = tag) with
  | some p => p.2
  | none => 0

/-- Modelled from the spec (§4.1): the POI's tag list read as a sparse tag-weight
mapping (each listed tag present with weight 1; cosine is scale-invariant, so
any uniform positive weight gives the same spec-side similarity). -/
def spec_poi_map (tags : List String) : List (String × ℚ) :=
  tags.dedup.map fun t => (t, (1 : ℚ))

/-- Modelled from the spec (§4.1): cosine similarity over the union of tags
present in either sparse mapping, a missing tag weighted 0, and 0 returned when
either side has zero magnitude. -/
noncomputable def spec_cosine_union (a b : List (String × ℚ)) : ℝ :=
  let keys := (a.map (·.1) ++ b.map (·.1)).dedup
  let va := keys.map fun k => ((lookupWeight a k : ℚ) : ℝ)
  let vb := keys.map fun k => ((lookupWeight b k : ℚ) : ℝ)
  if sqNorm va = 0 ∨ sqNorm vb = 0 then 0 else dotList va vb / (sqNorm va * sqNorm vb)

/-! ## Concrete example data used by witnesses and counterexamples -/

/-- A POI with id 2 and no tags. -/
def poiA : POI :=
  { id := 2, name := "A", latitude := 0, longitude := 0, category := "NATURE",
    average_rating := 5, tags := [] }

/-- A POI with id 1 and no tags. -/
def poiB : POI :=
  { id := 1, name := "B", latitude := 0, longitude := 0, category := "NATURE",
    average_rating := 5, tags := [] }

/-- A default request context at the origin. -/
def ctx0 : ContextDTO := { latitude := 0, longitude := 0 }

/-- Two co-located identical candidates, the larger id stored first, no blacklist. -/
def storeTie : Store := { pois := [(poiA, 0), (poiB, 0)], blacklist := [] }

/-- A blacklist entry for POI 1 that expired at time 10. -/
def entryExpired : BlacklistEntry :=
  { poiId := 1, reason := "Negative feedback spike", created_at := 0, expires_at := 10 }

/-- POI 1 in radius, carrying only the expired entry `entryExpired`. -/
def storeExpired : Store := { pois := [(poiB, 0)], blacklist := [entryExpired] }

/-- POI 1 in radius with an empty blacklist table. -/
def storeClean : Store := { pois := [(poiB, 0)], blacklist := [] }

/-- A user store with no users at all. -/
def stNoUsers : UserStore :=
  { users := [], interactions := [], poiTags := fun _ => [] }

/-- User 1 (empty preference vector) with one LIKE interaction on POI 1,
whose tag list is `["x"]`. -/
def stUserX : UserStore :=
  { users := [{ id := 1, preferences_vector := [] }],
    interactions := [⟨1, 1, .LIKE, 0, 1⟩],
    poiTags := fun _ => ["x"] }

/-- Trend store: POIs 1 and 2 in table order, POI 2 with two interactions in the
last 24 hours and POI 1 with one, empty cache, every POI inside every area. -/
def stTrend : TrendState :=
  { pois := [poiB, poiA],
    inArea := fun _ _ => true,
    interactions := [⟨5, 1, .VIEW, 0, 1⟩, ⟨5, 2, .VIEW, 0, 1⟩, ⟨6, 2, .VIEW, 0, 1⟩],
    trending := [] }

/-- Seasonal store: one POI (id 1) with interactions in March, June and June. -/
def stSeason : SeasonalState :=
  { poiIds := [1], interactionMonths := fun _ => [3, 6, 6], metadata := fun _ => none }

/-- The scored candidate produced for `poiA` at distance 0 under empty preferences. -/
noncomputable def spTieA : ScoredPOI :=
  { poi_id := 2, poi_name := "A", latitude := 0, longitude := 0, category := "NATURE",
    average_rating := 5, final_score := 1 / 2, similarity_score := 0, distance_score := 1,
    rating_score := 1, distance_meters := some 0, tags := [] }

/-- The scored candidate produced for `poiB` at distance 0 under empty preferences. -/
noncomputable def spTieB : ScoredPOI :=
  { poi_id := 1, poi_name := "B", latitude := 0, longitude := 0, category := "NATURE",
    average_rating := 5, final_score := 1 / 2, similarity_score := 0, distance_score := 1,
    rating_score := 1, distance_meters := some 0, tags := [] }

/-! ## Helper lemmas -/

theorem dotList_comm (a b : List ℝ) : dotList a b = dotList b a := by
  unfold dotList
  rw [List.zipWith_comm_of_comm (· * ·) mul_comm]

theorem dotList_self (a : List ℝ) : dotList a a = (a.map fun x => x ^ 2).sum := by
  unfold dotList
  induction a with
  | nil => simp
  | cons x xs ih => simp [List.zipWith, ih, sq]

theorem sumSq_nonneg (l : List ℝ) : 0 ≤ (l.map fun x => x ^ 2).sum := by
  apply List.sum_nonneg
  intro y hy
  obtain ⟨x, -, rfl⟩ := List.mem_map.mp hy
  positivity

theorem sqNorm_eq_zero_of_forall (l : List ℝ) (h : ∀ x ∈ l, x = 0) : sqNorm l = 0 := by
  unfold sqNorm
  have : (l.map fun x => x ^ 2).sum = 0 := by
    apply List.sum_eq_zero
    intro y hy
    obtain ⟨x, hx, rfl⟩ := List.mem_map.mp hy
    rw [h x hx]
    ring
  rw [this, Real.sqrt_zero]

theorem sqNorm_pos_of_exists (l : List ℝ) (h : ∃ x ∈ l, x ≠ 0) : 0 < sqNorm l := by
  unfold sqNorm
  apply Real.sqrt_pos.mpr
  obtain ⟨x, hx, hx0⟩ := h
  have hmem : x ^ 2 ∈ l.map fun x => x ^ 2 := List.mem_map.mpr ⟨x, hx, rfl⟩
  have hle : x ^ 2 ≤ (l.map fun x => x ^ 2).sum := by
    apply List.single_le_sum _ _ hmem
    intro y hy
    obtain ⟨z, -, rfl⟩ := List.mem_map.mp hy
    positivity
  have hx2 : 0 < x ^ 2 := by positivity
  linarith

theorem sqNorm_mul_self (l : List ℝ) : sqNorm l * sqNorm l = (l.map fun x => x ^ 2).sum := by
  unfold sqNorm
  exact Real.mul_self_sqrt (sumSq_nonneg l)

theorem mem_insertDescBy {α : Type} (gt : α → α → Bool) (x z : α) (l : List α) :
    z ∈ insertDescBy gt x l ↔ z = x ∨ z ∈ l := by
  induction l with
  | nil => simp [insertDescBy]
  | cons y ys ih =>
    simp only [insertDescBy]
    split
    · simp [List.mem_cons]
    · simp only [List.mem_cons, ih]
      tauto

theorem length_insertDescBy {α : Type} (gt : α → α → Bool) (x : α) (l : List α) :
    (insertDescBy gt x l).length = l.length + 1 := by
  induction l with
  | nil => rfl
  | cons y ys ih =>
    simp only [insertDescBy]
    split
    · simp
    · simp [ih]

theorem mem_sortDescBy {α : Type} (gt : α → α → Bool) (l : List α) (z : α) :
    z ∈ sortDescBy gt l ↔ z ∈ l := by
  suffices h : ∀ acc : List α,
      z ∈ l.foldl (fun acc x => insertDescBy gt x acc) acc ↔ z ∈ acc ∨ z ∈ l by
    simpa using h []
  induction l with
  | nil => intro acc; simp
  | cons y ys ih =>
    intro acc
    simp only [List.foldl_cons, ih, mem_insertDescBy, List.mem_cons]
    tauto

theorem length_sortDescBy {α : Type} (gt : α → α → Bool) (l : List α) :
    (sortDescBy gt l).length = l.length := by
  suffices h : ∀ acc : List α,
      (l.foldl (fun acc x => insertDescBy gt x acc) acc).length = acc.length + l.length by
    simpa using h []
  induction l with
  | nil => intro acc; simp
  | cons y ys ih =>
    intro acc
    simp only [List.foldl_cons, ih, length_insertDescBy, List.length_cons]
    omega

theorem pairwise_insertDescBy {α : Type} (gt : α → α → Bool) (R : α → α → Prop)
    (h1 : ∀ a b, gt a b = true → R a b) (h2 : ∀ a b, gt a b = false → R b a)
    (htrans : ∀ a b c, R a b → R b c → R a c)
    (x : α) (l : List α) (hl : l.Pairwise R) : (insertDescBy gt x l).Pairwise R := by
  induction l with
  | nil => simp [insertDescBy]
  | cons y ys ih =>
    rw [List.pairwise_cons] at hl
    simp only [insertDescBy]
    split
    · rename_i hgt
      rw [List.pairwise_cons]
      refine ⟨?_, List.pairwise_cons.mpr hl⟩
      intro z hz
      rcases List.mem_cons.mp hz with rfl | hz'
      · exact h1 x z hgt
      · exact htrans x y z (h1 x y hgt) (hl.1 z hz')
    · rename_i hgt
      rw [List.pairwise_cons]
      refine ⟨?_, ih hl.2⟩
      intro z hz
      rcases (mem_insertDescBy gt x z ys).mp hz with rfl | hz'
      · exact h2 z y (Bool.eq_false_iff.mpr (fun hc => hgt hc))
      · exact hl.1 z hz'

theorem pairwise_sortDescBy {α : Type} (gt : α → α → Bool) (R : α → α → Prop)
    (h1 : ∀ a b, gt a b = true → R a b) (h2 : ∀ a b, gt a b = false → R b a)
    (htrans : ∀ a b c, R a b → R b c → R a c)
    (l : List α) : (sortDescBy gt l).Pairwise R := by
  suffices h : ∀ acc : List α, acc.Pairwise R →
      (l.foldl (fun acc x => insertDescBy gt x acc) acc).Pairwise R by
    exact h [] (by simp)
  induction l with
  | nil => intro acc hacc; simpa using hacc
  | cons y ys ih =>
    intro acc hacc
    simp only [List.foldl_cons]
    exact ih _ (pairwise_insertDescBy gt R h1 h2 htrans y acc hacc)

/-! ## C7: distance decay -/

/-- C7: the distance decay function returns 1.0 on a missing, zero or negative
distance; on every positive distance `d` it returns `exp(-d/1000)`, so
`decay(1000)` is within 0.01 of 0.3679; and it is strictly decreasing on
positive distances. -/
theorem decay_spec :
    calculate_distance_decay none = 1 ∧
    (∀ d : ℝ, d ≤ 0 → calculate_distance_decay (some d) = 1) ∧
    (∀ d : ℝ, 0 < d → calculate_distance_decay (some d) = Real.exp (-d / 1000)) ∧
    |calculate_distance_decay (some 1000) - 0.3679| ≤ 0.01 ∧
    (∀ d1 d2 : ℝ, 0 < d1 → d1 < d2 →
      calculate_distance_decay (some d2) < calculate_distance_decay (some d1)) := by
  have hpos : ∀ d : ℝ, 0 < d → calculate_distance_decay (some d) = Real.exp (-d / 1000) := by
    intro d hd
    simp only [calculate_distance_decay]
    rw [if_neg (by push_neg; exact ⟨ne_of_gt hd, hd.le⟩)]
    exact max_eq_right (Real.exp_pos _).le
  refine ⟨rfl, ?_, hpos, ?_, ?_⟩
  · intro d hd
    simp only [calculate_distance_decay]
    rw [if_pos (Or.symm hd.lt_or_eq)]
  · rw [hpos 1000 (by norm_num)]
    have h1 : (-1000 : ℝ) / 1000 = -1 := by norm_num
    rw [h1, abs_le]
    constructor
    · linarith [Real.exp_neg_one_gt_d9]
    · linarith [Real.exp_neg_one_lt_d9]
  · intro d1 d2 h1 h12
    rw [hpos d1 h1, hpos d2 (h1.trans h12)]
    apply Real.exp_lt_exp.mpr
    have : d1 / 1000 < d2 / 1000 := by linarith
    linarith

/-- Witness for C7 at concrete distances. -/
theorem decay_spec_witness :
    ((-5 : ℝ) ≤ 0 ∧ calculate_distance_decay (some (-5)) = 1) ∧
    ((0 : ℝ) < 2 ∧ calculate_distance_decay (some 2) = Real.exp (-2 / 1000)) ∧
    ((0 : ℝ) < 2 ∧ (2 : ℝ) < 3 ∧
      calculate_distance_decay (some 3) < calculate_distance_decay (some 2)) :=
  ⟨⟨by norm_num, decay_spec.2.1 (-5) (by norm_num)⟩,
   ⟨by norm_num, decay_spec.2.2.1 2 (by norm_num)⟩,
   ⟨by norm_num, by norm_num, decay_spec.2.2.2.2 2 3 (by norm_num) (by norm_num)⟩⟩

/-! ## C6: similarity algebra -/

theorem calculate_similarity_comm (a b : List ℝ) :
    calculate_similarity a b = calculate_similarity b a := by
  unfold calculate_similarity
  by_cases h : a = [] ∨ b = []
  · rw [if_pos h, if_pos (Or.symm h)]
  · rw [if_neg h, if_neg (fun hc => h (Or.symm hc))]
    simp only
    rw [min_comm b.length a.length]
    set n := min a.length b.length with hn
    by_cases hz : sqNorm (a.take n) = 0 ∨ sqNorm (b.take n) = 0
    · rw [if_pos hz, if_pos (Or.symm hz)]
    · rw [if_neg hz, if_neg (fun hc => hz (Or.symm hc))]
      rw [dotList_comm, mul_comm (sqNorm (b.take n)) (sqNorm (a.take n))]

theorem calculate_similarity_zero_left (a b : List ℝ) (h : ∀ x ∈ a, x = 0) :
    calculate_similarity a b = 0 := by
  unfold calculate_similarity
  by_cases he : a = [] ∨ b = []
  · rw [if_pos he]
  · rw [if_neg he]
    simp only
    rw [if_pos]
    left
    apply sqNorm_eq_zero_of_forall
    intro x hx
    exact h x (List.take_subset _ _ hx)

theorem calculate_similarity_self (a : List ℝ) (h : ∃ x ∈ a, x ≠ 0) :
    calculate_similarity a a = 1 := by
  obtain ⟨x, hxa, hx0⟩ := h
  have hne : a ≠ [] := fun hnil => by simp [hnil] at hxa
  unfold calculate_similarity
  rw [if_neg (by simp [hne])]
  simp only [min_self, List.take_length]
  have hpos : 0 < sqNorm a := sqNorm_pos_of_exists a ⟨x, hxa, hx0⟩
  rw [if_neg (by push_neg; exact ⟨ne_of_gt hpos, ne_of_gt hpos⟩)]
  rw [dotList_self, sqNorm_mul_self]
  have hs : 0 < (a.map fun x => x ^ 2).sum := by
    have := sqNorm_pos_of_exists a ⟨x, hxa, hx0⟩
    unfold sqNorm at this
    exact (Real.sqrt_pos.mp this)
  rw [div_self (ne_of_gt hs)]
  norm_num

/-- C6: `calculate_similarity` is symmetric, returns 0.0 whenever either input
list is empty or all-zero, and returns 1.0 on `(a, a)` when `a` has a nonzero
entry. -/
theorem similarity_algebra :
    (∀ a b : List ℝ, calculate_similarity a b = calculate_similarity b a) ∧
    (∀ a b : List ℝ, (a = [] ∨ b = [] ∨ (∀ x ∈ a, x = 0) ∨ (∀ x ∈ b, x = 0)) →
      calculate_similarity a b = 0) ∧
    (∀ a : List ℝ, (∃ x ∈ a, x ≠ 0) → calculate_similarity a a = 1) := by
  refine ⟨calculate_similarity_comm, ?_, calculate_similarity_self⟩
  intro a b h
  rcases h with h | h | h | h
  · unfold calculate_similarity
    rw [if_pos (Or.inl h)]
  · unfold calculate_similarity
    rw [if_pos (Or.inr h)]
  · exact calculate_similarity_zero_left a b h
  · rw [calculate_similarity_comm]
    exact calculate_similarity_zero_left b a h

/-- Witness for C6 at concrete vectors. -/
theorem similarity_algebra_witness :
    calculate_similarity [1, 2] [3, 4] = calculate_similarity [3, 4] [1, 2] ∧
    calculate_similarity [(0 : ℝ), 0] [3, 4] = 0 ∧
    calculate_similarity [(3 : ℝ), 4] [3, 4] = 1 :=
  ⟨similarity_algebra.1 [1, 2] [3, 4],
   similarity_algebra.2.1 [(0 : ℝ), 0] [3, 4] (Or.inr (Or.inr (Or.inl (by norm_num)))),
   similarity_algebra.2.2 [(3 : ℝ), 4] ⟨3, by norm_num, by norm_num⟩⟩

/-! ## Membership in the scoring pipeline -/

theorem of_mem_scoredCandidates {w : Weights} {prefs : PrefVector} {ctx : ContextDTO}
    {store : Store} {sp : ScoredPOI} (h : sp ∈ scoredCandidates w prefs ctx store) :
    ∃ pd ∈ store.pois, pd.2 ≤ ctx.radius_meters ∧
      hasBlacklistEntry store.blacklist pd.1.id = false ∧
      sp.poi_id = pd.1.id ∧ sp.average_rating = pd.1.average_rating ∧
      sp.final_score = (compute_score w prefs pd.1 (some pd.2)).1 ∧
      sp.similarity_score = (compute_score w prefs pd.1 (some pd.2)).2.1 ∧
      sp.distance_score = (compute_score w prefs pd.1 (some pd.2)).2.2.1 ∧
      sp.rating_score = (compute_score w prefs pd.1 (some pd.2)).2.2.2 := by
  unfold scoredCandidates at h
  simp only [List.mem_map] at h
  obtain ⟨pd, hpd, rfl⟩ := h
  rw [List.mem_filter] at hpd
  obtain ⟨hmem, hcond⟩ := hpd
  simp only [Bool.and_eq_true, decide_eq_true_eq, Bool.not_eq_true'] at hcond
  exact ⟨pd, hmem, hcond.1, hcond.2, rfl, rfl, rfl, rfl, rfl, rfl⟩

theorem mem_scoredCandidates_of {w : Weights} {prefs : PrefVector} {ctx : ContextDTO}
    {store : Store} {pd : POI × ℚ} (hmem : pd ∈ store.pois)
    (hrad : pd.2 ≤ ctx.radius_meters)
    (hbl : hasBlacklistEntry store.blacklist pd.1.id = false) :
    ∃ sp ∈ scoredCandidates w prefs ctx store, sp.poi_id = pd.1.id := by
  unfold scoredCandidates
  refine ⟨_, List.mem_map.mpr ⟨pd, ?_, rfl⟩, rfl⟩
  rw [List.mem_filter]
  refine ⟨hmem, ?_⟩
  simp [hrad, hbl]

theorem mem_of_mem_generate {w : Weights} {prefs : PrefVector} {ctx : ContextDTO}
    {store : Store} {sp : ScoredPOI} (h : sp ∈ generate_recommendations w prefs ctx store) :
    sp ∈ scoredCandidates w prefs ctx store := by
  unfold generate_recommendations at h
  have h1 := List.mem_of_mem_take h
  unfold sortByScoreDesc at h1
  exact (mem_sortDescBy _ _ _).mp h1

/-! ## Stability of the descending sort -/

theorem filter_insert_key {α : Type} (key : α → ℝ) (x : α) (l : List α)
    (hl : l.Pairwise (fun a b => key b ≤ key a)) (v : ℝ) :
    ((insertDescBy (fun a b => decide (key b < key a)) x l).filter
      fun y => decide (key y = v)) =
      if key x = v then (l.filter fun y => decide (key y = v)) ++ [x]
      else l.filter fun y => decide (key y = v) := by
  induction l with
  | nil =>
    simp only [insertDescBy, List.filter_nil]
    split_ifs with h <;> simp [h]
  | cons y ys ih =>
    rw [List.pairwise_cons] at hl
    simp only [insertDescBy]
    by_cases hgt : key y < key x
    · rw [if_pos (by simp [hgt])]
      by_cases hx : key x = v
      · have hties : (List.filter (fun y => decide (key y = v)) (y :: ys)) = [] := by
          rw [List.filter_eq_nil_iff]
          intro z hz
          rcases List.mem_cons.mp hz with rfl | hz'
          · simp only [decide_eq_true_eq]
            intro hc
            rw [hc] at hgt
            exact absurd hx.symm (ne_of_lt (by linarith))
          · have := hl.1 z hz'
            simp only [decide_eq_true_eq]
            intro hc
            rw [hc] at this
            have : v < key x := lt_of_le_of_lt this hgt
            rw [hx] at this
            exact lt_irrefl v this
        rw [if_pos hx, hties, List.filter_cons_of_pos (by simp [hx]), hties]
        rfl
      · rw [if_neg hx, List.filter_cons_of_neg (by simp [hx])]
    · rw [if_neg (by simp [hgt])]
      by_cases hy : key y = v
      · rw [List.filter_cons_of_pos (by simp [hy]), List.filter_cons_of_pos (by simp [hy]),
          ih hl.2]
        split_ifs with hx
        · rw [List.cons_append]
        · rfl
      · rw [List.filter_cons_of_neg (by simp [hy]), List.filter_cons_of_neg (by simp [hy]),
          ih hl.2]

theorem filter_sortDescBy_key {α : Type} (key : α → ℝ) (l : List α) (v : ℝ) :
    ((sortDescBy (fun a b => decide (key b < key a)) l).filter
      fun y => decide (key y = v)) = l.filter fun y => decide (key y = v) := by
  suffices h : ∀ acc : List α, acc.Pairwise (fun a b => key b ≤ key a) →
      ((List.foldl (fun acc x => insertDescBy (fun a b => decide (key b < key a)) x acc)
        acc l).filter fun y => decide (key y = v)) =
        (acc.filter fun y => decide (key y = v)) ++ (l.filter fun y => decide (key y = v)) by
    simpa using h [] (by simp)
  induction l with
  | nil => intro acc hacc; simp
  | cons x xs ih =>
    intro acc hacc
    rw [List.foldl_cons, ih _ (by
      apply pairwise_insertDescBy _ _ ?_ ?_ ?_ _ _ hacc
      · intro a b h
        exact le_of_lt (of_decide_eq_true h)
      · intro a b h
        exact not_lt.mp (of_decide_eq_false h)
      · intro a b c hab hbc
        exact le_trans hbc hab)]
    rw [filter_insert_key key x acc hacc v]
    by_cases hx : key x = v
    · rw [if_pos hx, List.filter_cons_of_pos (by simp [hx]), List.append_assoc,
        List.singleton_append]
    · rw [if_neg hx, List.filter_cons_of_neg (by simp [hx])]

/-! ## C3: sorting and truncation -/

/-- C3 (amended): every `generate_recommendations` output has length at most
`context.max_results` and is sorted by `final_score` in descending order with no
inversions; candidates of equal `final_score` keep their source order (Python's
sort is stable), they are not reordered by candidate id. -/
theorem recommendations_sorted_truncated (w : Weights) (prefs : PrefVector)
    (ctx : ContextDTO) (store : Store) :
    (generate_recommendations w prefs ctx store).length ≤ ctx.max_results ∧
    (generate_recommendations w prefs ctx store).Pairwise
      (fun a b => b.final_score ≤ a.final_score) ∧
    (∀ v : ℝ, ((sortByScoreDesc (scoredCandidates w prefs ctx store)).filter
        fun sp => decide (sp.final_score = v)) =
      (scoredCandidates w prefs ctx store).filter fun sp => decide (sp.final_score = v)) := by
  refine ⟨?_, ?_, ?_⟩
  · unfold generate_recommendations
    rw [List.length_take]
    exact min_le_left _ _
  · unfold generate_recommendations
    apply List.Pairwise.sublist (List.take_sublist _ _)
    unfold sortByScoreDesc
    apply pairwise_sortDescBy
    · intro a b h
      exact le_of_lt (of_decide_eq_true h)
    · intro a b h
      exact not_lt.mp (of_decide_eq_false h)
    · intro a b c hab hbc
      exact le_trans hbc hab
  · intro v
    exact filter_sortDescBy_key (fun sp => sp.final_score) (scoredCandidates w prefs ctx store) v

/-! ## C2: blacklist exclusion -/

/-- C2 (amended): a candidate is excluded on account of blacklisting exactly when
a `BlacklistedPOI` row for it exists at query time, regardless of expiry: no
result carries a blacklisted id, and every in-radius candidate without a row
reaches the scored-candidate list (before sorting and truncation). -/
theorem blacklist_exclusion (w : Weights) (prefs : PrefVector) (ctx : ContextDTO)
    (store : Store) :
    (∀ sp ∈ generate_recommendations w prefs ctx store,
      hasBlacklistEntry store.blacklist sp.poi_id = false) ∧
    (∀ pd ∈ store.pois, pd.2 ≤ ctx.radius_meters →
      hasBlacklistEntry store.blacklist pd.1.id = false →
      ∃ sp ∈ scoredCandidates w prefs ctx store, sp.poi_id = pd.1.id) := by
  constructor
  · intro sp hsp
    obtain ⟨pd, -, -, hbl, hid, -⟩ := of_mem_scoredCandidates (mem_of_mem_generate hsp)
    rw [hid]
    exact hbl
  · intro pd hmem hrad hbl
    exact mem_scoredCandidates_of hmem hrad hbl

/-- Witness for C2 at a concrete store. -/
theorem blacklist_exclusion_witness :
    ((poiB, (0 : ℚ)) ∈ storeClean.pois ∧ (0 : ℚ) ≤ ctx0.radius_meters ∧
      hasBlacklistEntry storeClean.blacklist poiB.id = false) ∧
    (∃ sp ∈ scoredCandidates defaultWeights [] ctx0 storeClean, sp.poi_id = poiB.id) :=
  ⟨⟨by simp [storeClean], by norm_num [ctx0], by decide⟩,
    (blacklist_exclusion defaultWeights [] ctx0 storeClean).2 (poiB, 0)
      (by simp [storeClean]) (by norm_num [ctx0]) (by decide)⟩

/-! ## C10: score ranges -/

theorem calculate_similarity_range (a b : List ℝ) :
    0 ≤ calculate_similarity a b ∧ calculate_similarity a b ≤ 1 := by
  unfold calculate_similarity
  split
  · norm_num
  · simp only
    split
    · norm_num
    · refine ⟨le_max_left 0 _, ?_⟩
      apply max_le (by norm_num)
      exact min_le_left 1 _

theorem calculate_distance_decay_range (d : Option ℝ) :
    0 ≤ calculate_distance_decay d ∧ calculate_distance_decay d ≤ 1 := by
  match d with
  | none => exact ⟨by norm_num [calculate_distance_decay], by norm_num [calculate_distance_decay]⟩
  | some x =>
    simp only [calculate_distance_decay]
    split
    · norm_num
    · rename_i hx
      push_neg at hx
      refine ⟨le_max_left 0 _, ?_⟩
      apply max_le (by norm_num)
      have h1 : Real.exp (-x / 1000) ≤ Real.exp 0 := by
        apply Real.exp_le_exp.mpr
        have h2 := hx.2
        linarith
      rw [Real.exp_zero] at h1
      exact h1

theorem compute_score_range (prefs : PrefVector) (poi : POI) (dist : Option ℚ)
    (h0 : 0 ≤ poi.average_rating) (h5 : poi.average_rating ≤ 5) :
    (0 ≤ (compute_score defaultWeights prefs poi dist).2.1 ∧
      (compute_score defaultWeights prefs poi dist).2.1 ≤ 1) ∧
    (0 ≤ (compute_score defaultWeights prefs poi dist).2.2.2 ∧
      (compute_score defaultWeights prefs poi dist).2.2.2 ≤ 1) ∧
    (0 ≤ (compute_score defaultWeights prefs poi dist).2.2.1 ∧
      (compute_score defaultWeights prefs poi dist).2.2.1 ≤ 1) ∧
    (0 ≤ (compute_score defaultWeights prefs poi dist).1 ∧
      (compute_score defaultWeights prefs poi dist).1 ≤ 1) := by
  have hsim := calculate_similarity_range (getUserVector prefs) (getPoiVector poi.tags)
  have hrat : (0 : ℝ) ≤ (if poi.average_rating ≠ 0 then (poi.average_rating : ℝ) / 5 else 0) ∧
      (if poi.average_rating ≠ 0 then (poi.average_rating : ℝ) / 5 else 0) ≤ 1 := by
    split
    · have hc0 : (0 : ℝ) ≤ (poi.average_rating : ℝ) := by exact_mod_cast h0
      have hc5 : (poi.average_rating : ℝ) ≤ 5 := by exact_mod_cast h5
      constructor <;> linarith
    · norm_num
  have hdist : (0 : ℝ) ≤ (match dist with
        | none => (1 : ℝ)
        | some d => if d = 0 then 1 else calculate_distance_decay (some (d : ℝ))) ∧
      (match dist with
        | none => (1 : ℝ)
        | some d => if d = 0 then 1 else calculate_distance_decay (some (d : ℝ))) ≤ 1 := by
    rcases dist with - | d
    · simp
    · simp only
      split
      · norm_num
      · exact calculate_distance_decay_range (some (d : ℝ))
  unfold compute_score
  simp only
  refine ⟨hsim, hrat, hdist, ?_⟩
  have hwi : defaultWeights.interest = 0.5 := rfl
  have hwr : defaultWeights.rating = 0.3 := rfl
  have hwd : defaultWeights.distance = 0.2 := rfl
  rw [hwi, hwr, hwd]
  obtain ⟨hs0, hs1⟩ := hsim
  obtain ⟨hr0, hr1⟩ := hrat
  obtain ⟨hd0, hd1⟩ := hdist
  constructor <;> linarith

/-- C10: with the default weights, for every user-preference dict and every POI
whose `average_rating` lies in `[0, 5]`, all four values computed by
`compute_score` lie in `[0, 1]`; hence every `ScoredPOI` produced by
`generate_recommendations` over a store of such POIs has its four score fields
in `[0, 1]`. -/
theorem score_fields_in_unit_interval (prefs : PrefVector) :
    (∀ (poi : POI) (dist : Option ℚ), 0 ≤ poi.average_rating → poi.average_rating ≤ 5 →
      (0 ≤ (compute_score defaultWeights prefs poi dist).2.1 ∧
        (compute_score defaultWeights prefs poi dist).2.1 ≤ 1) ∧
      (0 ≤ (compute_score defaultWeights prefs poi dist).2.2.2 ∧
        (compute_score defaultWeights prefs poi dist).2.2.2 ≤ 1) ∧
      (0 ≤ (compute_score defaultWeights prefs poi dist).2.2.1 ∧
        (compute_score defaultWeights prefs poi dist).2.2.1 ≤ 1) ∧
      (0 ≤ (compute_score defaultWeights prefs poi dist).1 ∧
        (compute_score defaultWeights prefs poi dist).1 ≤ 1)) ∧
    (∀ (ctx : ContextDTO) (store : Store) (sp : ScoredPOI),
      (∀ pd ∈ store.pois, 0 ≤ pd.1.average_rating ∧ pd.1.average_rating ≤ 5) →
      sp ∈ generate_recommendations defaultWeights prefs ctx store →
      (0 ≤ sp.similarity_score ∧ sp.similarity_score ≤ 1) ∧
      (0 ≤ sp.rating_score ∧ sp.rating_score ≤ 1) ∧
      (0 ≤ sp.distance_score ∧ sp.distance_score ≤ 1) ∧
      (0 ≤ sp.final_score ∧ sp.final_score ≤ 1)) := by
  refine ⟨fun poi dist h0 h5 => compute_score_range prefs poi dist h0 h5, ?_⟩
  intro ctx store sp hstore hsp
  obtain ⟨pd, hmem, -, -, -, -, hfin, hsim, hdst, hrat⟩ :=
    of_mem_scoredCandidates (mem_of_mem_generate hsp)
  obtain ⟨h0, h5⟩ := hstore pd hmem
  obtain ⟨hs, hr, hd, hf⟩ := compute_score_range prefs pd.1 (some pd.2) h0 h5
  rw [hfin, hsim, hdst, hrat]
  exact ⟨hs, hr, hd, hf⟩

/-! ## Concrete evaluation helpers -/

theorem getUserVector_nil : getUserVector [] = List.replicate vector_dimension 0 := by
  show ratListToReal (userVectorQ []) = _
  have h : userVectorQ [] = List.replicate vector_dimension 0 := rfl
  rw [h]
  unfold ratListToReal
  rw [List.map_replicate]
  norm_num

theorem getPoiVector_nil : getPoiVector [] = List.replicate vector_dimension 0 := by
  show ratListToReal (poiVectorQ []) = _
  have h : poiVectorQ [] = List.replicate vector_dimension 0 := rfl
  rw [h]
  unfold ratListToReal
  rw [List.map_replicate]
  norm_num

theorem similarity_nil_nil :
    calculate_similarity (getUserVector []) (getPoiVector []) = 0 := by
  rw [getUserVector_nil]
  apply calculate_similarity_zero_left
  intro x hx
  exact List.eq_of_mem_replicate hx

theorem compute_score_empty_tags (poi : POI) (htags : poi.tags = [])
    (havg : poi.average_rating = 5) :
    compute_score defaultWeights [] poi (some 0) = (1 / 2, 0, 1, 1) := by
  unfold compute_score
  rw [htags, havg, similarity_nil_nil]
  norm_num [defaultWeights, Prod.ext_iff]

theorem sortDescBy_pair {α : Type} (gt : α → α → Bool) (x y : α) (h : gt y x = false) :
    sortDescBy gt [x, y] = [x, y] := by
  simp [sortDescBy, insertDescBy, h]

/-- Counterexample to C3 as stated: two candidates with equal `final_score`
appear in source order `[id 2, id 1]`, not in candidate-id order `[1, 2]`. -/
theorem tie_kept_in_source_order :
    (generate_recommendations defaultWeights [] ctx0 storeTie).map (fun sp => sp.poi_id) =
      [2, 1] ∧
    (generate_recommendations defaultWeights [] ctx0 storeTie).map (fun sp => sp.final_score) =
      [1 / 2, 1 / 2] := by
  have hA : compute_score defaultWeights [] poiA (some 0) = (1 / 2, 0, 1, 1) :=
    compute_score_empty_tags poiA rfl rfl
  have hB : compute_score defaultWeights [] poiB (some 0) = (1 / 2, 0, 1, 1) :=
    compute_score_empty_tags poiB rfl rfl
  have hsc : scoredCandidates defaultWeights [] ctx0 storeTie = [spTieA, spTieB] := by
    unfold scoredCandidates
    have hfil : storeTie.pois.filter (fun pd =>
        decide (pd.2 ≤ ctx0.radius_meters) && ! hasBlacklistEntry storeTie.blacklist pd.1.id) =
        storeTie.pois := by decide
    rw [hfil]
    show [(poiA, (0 : ℚ)), (poiB, 0)].map _ = _
    simp only [List.map_cons, List.map_nil, hA, hB]
    simp [spTieA, spTieB, poiA, poiB]
  have hgt : scoreGT spTieB spTieA = false := by
    apply decide_eq_false
    simp [spTieA, spTieB]
  unfold generate_recommendations
  rw [hsc]
  unfold sortByScoreDesc
  rw [sortDescBy_pair scoreGT spTieA spTieB hgt]
  simp [ctx0, spTieA, spTieB]

/-- Counterexample to C2 as stated: at query time 100 the only blacklist entry of
POI 1 is already expired (hence not live), yet POI 1 is still excluded from
`generate_recommendations`. -/
theorem expired_entry_still_excluded :
    BlacklistEntry.isExpired 100 entryExpired ∧
    ¬ BlacklistEntry.isLive 100 entryExpired ∧
    generate_recommendations defaultWeights [] ctx0 storeExpired = [] := by
  refine ⟨?_, ?_, ?_⟩
  · show entryExpired.expires_at ≤ 100
    norm_num [entryExpired]
  · show ¬ (100 : ℤ) < entryExpired.expires_at
    norm_num [entryExpired]
  · rfl

/-- Witness for C10 at a concrete POI. -/
theorem score_fields_in_unit_interval_witness :
    ((0 : ℚ) ≤ poiA.average_rating ∧ poiA.average_rating ≤ 5) ∧
    0 ≤ (compute_score defaultWeights [] poiA none).1 ∧
    (compute_score defaultWeights [] poiA none).1 ≤ 1 :=
  ⟨⟨by norm_num [poiA], by norm_num [poiA]⟩,
    ((score_fields_in_unit_interval []).1 poiA none (by norm_num [poiA])
      (by norm_num [poiA])).2.2.2⟩

/-! ## C1: the preference update is a no-op in the code -/

/-- C1 (code bug): the `UserProfile.update_vector` body is an unimplemented
`return  # TODO:` and `update_user_vector` never saves anything, so two LIKE
updates on a POI tagged `["x"]` leave the stored weight of "x" at 0; the spec's
accumulation rule (also asserted by the repository's own
`test_update_user_vector`) would leave `0.3 + 0.3 = 0.6`. -/
theorem like_updates_are_lost :
    ((update_user_vector (update_user_vector stUserX 1 InteractionType.LIKE).2 1
        InteractionType.LIKE).2.users.map fun u => vecWeight u.preferences_vector "x") =
      [0] ∧
    spec_update_vector (spec_update_vector [] "x" (interactionWeight InteractionType.LIKE))
        "x" (interactionWeight InteractionType.LIKE) = [("x", 0.6)] := by
  constructor
  · rfl
  · norm_num [spec_update_vector, interactionWeight]

/-! ## C9: a missing user is swallowed silently -/

/-- Counterexample to C9 as stated: invoking the preference-update path for an
absent user id returns normally — `Except.ok`, no `NotFound` error surfaced —
and leaves the store untouched. -/
theorem missing_user_no_error :
    (update_user_vector stNoUsers 7 InteractionType.LIKE).1 = Except.ok () ∧
    (update_user_vector stNoUsers 7 InteractionType.LIKE).2 = stNoUsers :=
  ⟨rfl, rfl⟩

/-- C9 (amended): when the user id does not exist, `update_user_vector` catches
the lookup failure, logs it and returns normally with no effect; no error of any
kind is surfaced to the caller. -/
theorem missing_user_returns_silently (st : UserStore) (uid : ℕ) (t : InteractionType)
    (h : st.users.find? (fun u => u.id = uid) = none) :
    update_user_vector st uid t = (Except.ok (), st) := by
  unfold update_user_vector
  rw [h]

/-- Witness for the amended C9 at a concrete store. -/
theorem missing_user_returns_silently_witness :
    stNoUsers.users.find? (fun u => u.id = 7) = none ∧
    update_user_vector stNoUsers 7 InteractionType.LIKE = (Except.ok (), stNoUsers) :=
  ⟨rfl, missing_user_returns_silently stNoUsers 7 InteractionType.LIKE rfl⟩

/-! ## C4: positional projection versus tag-union cosine -/

theorem length_padListQ (n : ℕ) (l : List ℚ) : (padListQ n l).length = n := by
  unfold padListQ
  rw [List.length_append, List.length_take, List.length_replicate]
  omega

theorem length_userVectorQ (prefs : PrefVector) :
    (userVectorQ prefs).length = vector_dimension := by
  unfold userVectorQ
  split
  · rw [List.length_replicate]
  · exact length_padListQ _ _

theorem length_poiVectorQ (tags : List String) :
    (poiVectorQ tags).length = vector_dimension := by
  unfold poiVectorQ
  split
  · rw [List.length_replicate]
  · exact length_padListQ _ _

theorem length_getUserVector (prefs : PrefVector) :
    (getUserVector prefs).length = vector_dimension := by
  unfold getUserVector ratListToReal
  rw [List.length_map]
  exact length_userVectorQ prefs

theorem length_getPoiVector (tags : List String) :
    (getPoiVector tags).length = vector_dimension := by
  unfold getPoiVector ratListToReal
  rw [List.length_map]
  exact length_poiVectorQ tags

/-- C4 (amended): the similarity score produced during candidate scoring is the
`[0,1]`-clamped cosine of the two fixed 100-dimensional positional projection
vectors (the user's key-sorted, max-normalized weights and the POI's uniform
`1/len` tag weights, both written by position): tags are matched by index, not
by name. -/
theorem similarity_is_positional_cosine (w : Weights) (prefs : PrefVector) (poi : POI)
    (dist : Option ℚ) :
    (compute_score w prefs poi dist).2.1 =
      if sqNorm (getUserVector prefs) = 0 ∨ sqNorm (getPoiVector poi.tags) = 0 then 0
      else max 0 (min 1 (dotList (getUserVector prefs) (getPoiVector poi.tags) /
        (sqNorm (getUserVector prefs) * sqNorm (getPoiVector poi.tags)))) := by
  have hu := length_getUserVector prefs
  have hp := length_getPoiVector poi.tags
  have hune : getUserVector prefs ≠ [] := by
    intro hc
    rw [hc] at hu
    simp [vector_dimension] at hu
  have hpne : getPoiVector poi.tags ≠ [] := by
    intro hc
    rw [hc] at hp
    simp [vector_dimension] at hp
  show calculate_similarity (getUserVector prefs) (getPoiVector poi.tags) = _
  unfold calculate_similarity
  rw [if_neg (by simp [hune, hpne])]
  simp only [hu, hp, min_self]
  rw [← hu, List.take_length, hu, ← hp, List.take_length]

/-- Counterexample to C4 as stated: with user preferences `{"a": 1}` and POI tag
list `["b"]` the code's similarity is 1.0 (the two projection vectors agree
positionally) while the tag-union cosine of the two sparse mappings is 0. -/
theorem positional_similarity_not_union_cosine :
    calculate_similarity (getUserVector [("a", 1)]) (getPoiVector ["b"]) = 1 ∧
    spec_cosine_union [("a", 1)] (spec_poi_map ["b"]) = 0 := by
  constructor
  · have huv : userVectorQ [("a", 1)] = 1 :: List.replicate 99 0 := by
      unfold userVectorQ
      rw [if_neg (by simp)]
      unfold padListQ vector_dimension
      norm_num [maxWeight, sortAscBy, insertAscBy]
    have hpv : poiVectorQ ["b"] = 1 :: List.replicate 99 0 := by
      unfold poiVectorQ
      rw [if_neg (by simp)]
      unfold padListQ vector_dimension
      norm_num
    have hv : userVectorQ [("a", 1)] = poiVectorQ ["b"] := by rw [huv, hpv]
    show calculate_similarity (ratListToReal (userVectorQ [("a", 1)]))
      (ratListToReal (poiVectorQ ["b"])) = 1
    rw [hv]
    apply calculate_similarity_self
    rw [hpv]
    unfold ratListToReal
    refine ⟨1, ?_, one_ne_zero⟩
    simp
  · unfold spec_cosine_union
    have hk : (([(("a" : String), (1 : ℚ))].map (fun p => p.1)) ++
        ((spec_poi_map ["b"]).map (fun p => p.1))).dedup = ["a", "b"] := by decide
    rw [hk]
    have ha1 : lookupWeight [("a", 1)] "a" = 1 := by decide
    have ha2 : lookupWeight [("a", 1)] "b" = 0 := by decide
    have hb1 : lookupWeight (spec_poi_map ["b"]) "a" = 0 := by decide
    have hb2 : lookupWeight (spec_poi_map ["b"]) "b" = 1 := by decide
    simp only [List.map_cons, List.map_nil, ha1, ha2, hb1, hb2]
    have hdot : dotList [((1 : ℚ) : ℝ), ((0 : ℚ) : ℝ)] [((0 : ℚ) : ℝ), ((1 : ℚ) : ℝ)] = 0 := by
      unfold dotList
      norm_num
    rw [hdot]
    split
    · rfl
    · exact zero_div _

/-! ## C8: seasonal analysis -/

theorem bumpSeason_get_same (c : SeasonCounts) (s : Season) :
    (bumpSeason c s).get s = c.get s + 1 := by
  cases s <;> rfl

theorem bumpSeason_get_ne (c : SeasonCounts) {t s : Season} (h : t ≠ s) :
    (bumpSeason c t).get s = c.get s := by
  cases t <;> cases s <;> first | rfl | exact absurd rfl h

theorem foldl_bump_get (ms : List ℕ) (c : SeasonCounts) (s : Season) :
    (ms.foldl (fun c m => bumpSeason c (seasonOfMonth m)) c).get s =
      c.get s + (ms.filter fun m => decide (seasonOfMonth m = s)).length := by
  induction ms generalizing c with
  | nil => simp
  | cons m ms ih =>
    rw [List.foldl_cons, ih, List.filter_cons]
    by_cases h : seasonOfMonth m = s
    · rw [if_pos (by simp [h]), h, bumpSeason_get_same, List.length_cons]
      omega
    · rw [if_neg (by simp [h]), bumpSeason_get_ne c h]

theorem seasonCounts_get (months : List ℕ) (s : Season) :
    (seasonCounts months).get s =
      (months.filter fun m => decide (seasonOfMonth m = s)).length := by
  unfold seasonCounts
  rw [foldl_bump_get]
  cases s <;> simp [SeasonCounts.get]

theorem peak_season_ge (c : SeasonCounts) (s : Season) :
    c.get s ≤ c.get (peak_season c) := by
  unfold peak_season
  simp only [List.foldl_cons, List.foldl_nil]
  cases s <;> split_ifs <;> simp_all [SeasonCounts.get] <;> omega

theorem peak_season_first (c : SeasonCounts) (s : Season)
    (h : seasonIdx s < seasonIdx (peak_season c)) : c.get s < c.get (peak_season c) := by
  unfold peak_season at h ⊢
  simp only [List.foldl_cons, List.foldl_nil] at h ⊢
  cases s <;> split_ifs at h ⊢ <;> simp_all [SeasonCounts.get, seasonIdx] <;> omega

theorem seasonOfMonth_spring_iff (m : ℕ) :
    seasonOfMonth m = Season.SPRING ↔ (m = 3 ∨ m = 4 ∨ m = 5) := by
  unfold seasonOfMonth
  split_ifs <;> simp_all

theorem seasonOfMonth_summer_iff (m : ℕ) :
    seasonOfMonth m = Season.SUMMER ↔ (m = 6 ∨ m = 7 ∨ m = 8) := by
  unfold seasonOfMonth
  split_ifs <;> simp_all <;> omega

theorem seasonOfMonth_fall_iff (m : ℕ) :
    seasonOfMonth m = Season.FALL ↔ (m = 9 ∨ m = 10 ∨ m = 11) := by
  unfold seasonOfMonth
  split_ifs <;> simp_all <;> omega

theorem seasonOfMonth_winter_iff (m : ℕ) (h1 : 1 ≤ m) (h2 : m ≤ 12) :
    seasonOfMonth m = Season.WINTER ↔ (m = 12 ∨ m = 1 ∨ m = 2) := by
  unfold seasonOfMonth
  split_ifs <;> simp_all <;> omega

/-- C8: for every POI with at least one interaction whose months are calendar
months, `analyze_seasonal_trends` upserts a fully recomputed `SeasonalMetadata`
row whose four counters are the numbers of that POI's interactions in the month
buckets Mar–May, Jun–Aug, Sep–Nov and Dec–Feb, and whose peak season attains
the maximal counter and is the first such season in the fixed order Spring,
Summer, Fall, Winter. -/
theorem seasonal_analysis_spec (st : SeasonalState) (pid : ℕ) (hmem : pid ∈ st.poiIds)
    (hne : (st.interactionMonths pid).isEmpty = false)
    (hval : ∀ m ∈ st.interactionMonths pid, 1 ≤ m ∧ m ≤ 12) :
    (analyze_seasonal_trends st).metadata pid =
      some (seasonCounts (st.interactionMonths pid),
        peak_season (seasonCounts (st.interactionMonths pid))) ∧
    (seasonCounts (st.interactionMonths pid)).spring =
      ((st.interactionMonths pid).filter fun m => decide (m = 3 ∨ m = 4 ∨ m = 5)).length ∧
    (seasonCounts (st.interactionMonths pid)).summer =
      ((st.interactionMonths pid).filter fun m => decide (m = 6 ∨ m = 7 ∨ m = 8)).length ∧
    (seasonCounts (st.interactionMonths pid)).fall =
      ((st.interactionMonths pid).filter fun m => decide (m = 9 ∨ m = 10 ∨ m = 11)).length ∧
    (seasonCounts (st.interactionMonths pid)).winter =
      ((st.interactionMonths pid).filter fun m => decide (m = 12 ∨ m = 1 ∨ m = 2)).length ∧
    (∀ s : Season, (seasonCounts (st.interactionMonths pid)).get s ≤
      (seasonCounts (st.interactionMonths pid)).get
        (peak_season (seasonCounts (st.interactionMonths pid)))) ∧
    (∀ s : Season,
      seasonIdx s < seasonIdx (peak_season (seasonCounts (st.interactionMonths pid))) →
      (seasonCounts (st.interactionMonths pid)).get s <
        (seasonCounts (st.interactionMonths pid)).get
          (peak_season (seasonCounts (st.interactionMonths pid)))) := by
  refine ⟨?_, ?_, ?_, ?_, ?_, peak_season_ge _, peak_season_first _⟩
  · unfold analyze_seasonal_trends
    simp only
    rw [if_pos ⟨hmem, by rw [hne]; exact Bool.false_ne_true⟩]
  · have h := seasonCounts_get (st.interactionMonths pid) Season.SPRING
    rw [show (seasonCounts (st.interactionMonths pid)).get Season.SPRING =
      (seasonCounts (st.interactionMonths pid)).spring from rfl] at h
    rw [h]
    congr 1
    apply List.filter_congr
    intro m hm
    rw [decide_eq_decide]
    exact seasonOfMonth_spring_iff m
  · have h := seasonCounts_get (st.interactionMonths pid) Season.SUMMER
    rw [show (seasonCounts (st.interactionMonths pid)).get Season.SUMMER =
      (seasonCounts (st.interactionMonths pid)).summer from rfl] at h
    rw [h]
    congr 1
    apply List.filter_congr
    intro m hm
    rw [decide_eq_decide]
    exact seasonOfMonth_summer_iff m
  · have h := seasonCounts_get (st.interactionMonths pid) Season.FALL
    rw [show (seasonCounts (st.interactionMonths pid)).get Season.FALL =
      (seasonCounts (st.interactionMonths pid)).fall from rfl] at h
    rw [h]
    congr 1
    apply List.filter_congr
    intro m hm
    rw [decide_eq_decide]
    exact seasonOfMonth_fall_iff m
  · have h := seasonCounts_get (st.interactionMonths pid) Season.WINTER
    rw [show (seasonCounts (st.interactionMonths pid)).get Season.WINTER =
      (seasonCounts (st.interactionMonths pid)).winter from rfl] at h
    rw [h]
    congr 1
    apply List.filter_congr
    intro m hm
    rw [decide_eq_decide]
    exact seasonOfMonth_winter_iff m (hval m hm).1 (hval m hm).2

/-- Witness for C8 at a concrete store. -/
theorem seasonal_analysis_spec_witness :
    (1 ∈ stSeason.poiIds ∧ (stSeason.interactionMonths 1).isEmpty = false ∧
      ∀ m ∈ stSeason.interactionMonths 1, 1 ≤ m ∧ m ≤ 12) ∧
    (analyze_seasonal_trends stSeason).metadata 1 =
      some (seasonCounts (stSeason.interactionMonths 1),
        peak_season (seasonCounts (stSeason.interactionMonths 1))) :=
  ⟨⟨by decide, rfl, by decide⟩,
    (seasonal_analysis_spec stSeason 1 (by decide) rfl (by decide)).1⟩

/-! ## C5: trending cache -/

theorem find?_map_replace (gh : String) (e : TrendingList) (he : e.geohash = gh)
    (ts : List TrendingList) (h : ts.any (fun t => t.geohash = gh) = true) :
    (ts.map fun t => if t.geohash = gh then e else t).find? (fun t => t.geohash = gh) =
      some e := by
  induction ts with
  | nil => simp at h
  | cons t ts ih =>
    simp only [List.map_cons]
    by_cases ht : t.geohash = gh
    · rw [if_pos ht]
      rw [List.find?_cons_of_pos _ (by simp [he])]
    · rw [if_neg ht]
      rw [List.find?_cons_of_neg _ (by simp [ht])]
      apply ih
      simp only [List.any_cons, Bool.or_eq_true, decide_eq_true_eq] at h
      rcases h with h | h
      · exact absurd h ht
      · exact h

theorem find?_append_new (gh : String) (e : TrendingList) (he : e.geohash = gh)
    (ts : List TrendingList) (h : ts.any (fun t => t.geohash = gh) = false) :
    (ts ++ [e]).find? (fun t => t.geohash = gh) = some e := by
  induction ts with
  | nil => simp [he]
  | cons t ts ih =>
    simp only [List.any_cons, Bool.or_eq_false_iff, decide_eq_false_iff_not] at h
    rw [List.cons_append, List.find?_cons_of_neg _ (by simp [h.1])]
    exact ih h.2

theorem find?_upsertTrending (ts : List TrendingList) (gh : String) (e : TrendingList)
    (he : e.geohash = gh) :
    (upsertTrending ts gh e).find? (fun t => t.geohash = gh) = some e := by
  unfold upsertTrending
  split
  · rename_i h
    exact find?_map_replace gh e he ts h
  · rename_i h
    exact find?_append_new gh e he ts (Bool.eq_false_iff.mpr h)

theorem computeTrending_snd_trending (st : TrendState) (now : Time) (gh : String) :
    (computeTrending st now gh).2.trending =
      upsertTrending st.trending gh
        { geohash := gh, pois := (computeTrending st now gh).1.map (fun p => p.id),
          updated_at := now } := rfl

theorem computeTrending_snd_pois (st : TrendState) (now : Time) (gh : String) :
    (computeTrending st now gh).2.pois = st.pois := rfl

theorem computeTrending_fst_subset (st : TrendState) (now : Time) (gh : String) :
    ∀ p ∈ (computeTrending st now gh).1, p ∈ st.pois := by
  intro p hp
  unfold computeTrending at hp
  simp only at hp
  have h1 := List.mem_of_mem_take hp
  have h2 := (mem_sortDescBy _ _ _).mp h1
  exact List.mem_of_mem_filter h2

/-- C5 (amended): a second `get_trending_now` call within the TTL window after a
cache-miss first call is a cache hit: it performs no recompute and no cache
write (the state is returned unchanged), and it returns the cached POI ids
resolved against the current POI table — the same members as the first call's
list whenever POI ids are unique, but in table order rather than in the first
call's ranked order. -/
theorem trending_cache_hit (st : TrendState) (now1 now2 : Time) (gh : String)
    (hmiss : st.trending.find? (fun t => t.geohash = gh) = none)
    (httl : now2 - now1 < CACHE_TTL) :
    (get_trending_now (get_trending_now st now1 gh).2 now2 gh).2 =
      (get_trending_now st now1 gh).2 ∧
    (get_trending_now (get_trending_now st now1 gh).2 now2 gh).1 =
      st.pois.filter (fun p =>
        ((get_trending_now st now1 gh).1.map (fun q => q.id)).contains p.id) ∧
    ((st.pois.map (fun p => p.id)).Nodup →
      ∀ p, p ∈ (get_trending_now (get_trending_now st now1 gh).2 now2 gh).1 ↔
        p ∈ (get_trending_now st now1 gh).1) := by
  have hfirst : get_trending_now st now1 gh = computeTrending st now1 gh := by
    unfold get_trending_now
    rw [hmiss]
  have hentry := find?_upsertTrending st.trending gh
    { geohash := gh, pois := (computeTrending st now1 gh).1.map (fun p => p.id),
      updated_at := now1 } rfl
  have hsecond : get_trending_now (computeTrending st now1 gh).2 now2 gh =
      ((computeTrending st now1 gh).2.pois.filter (fun p =>
        ((computeTrending st now1 gh).1.map (fun q => q.id)).contains p.id),
       (computeTrending st now1 gh).2) := by
    unfold get_trending_now
    rw [computeTrending_snd_trending st now1 gh, hentry]
    simp only
    rw [if_pos httl]
  rw [hfirst, hsecond]
  refine ⟨rfl, computeTrending_snd_pois st now1 gh ▸ rfl, ?_⟩
  intro hnodup p
  simp only
  rw [computeTrending_snd_pois st now1 gh]
  rw [List.mem_filter]
  constructor
  · rintro ⟨hmem, hcon⟩
    rw [List.elem_iff, List.mem_map] at hcon
    obtain ⟨q, hq, hqid⟩ := hcon
    have hqmem := computeTrending_fst_subset st now1 gh q hq
    have : p = q := List.inj_on_of_nodup_map hnodup hmem hqmem hqid.symm
    rw [this]
    exact hq
  · intro hp
    refine ⟨computeTrending_fst_subset st now1 gh p hp, ?_⟩
    rw [List.elem_iff, List.mem_map]
    exact ⟨p, hp, rfl⟩

/-- Witness for the amended C5 at a concrete trend store. -/
theorem trending_cache_hit_witness :
    (stTrend.trending.find? (fun t => t.geohash = "g") = none ∧
      (1500 : ℤ) - 1000 < CACHE_TTL) ∧
    (get_trending_now (get_trending_now stTrend 1000 "g").2 1500 "g").2 =
      (get_trending_now stTrend 1000 "g").2 :=
  ⟨⟨rfl, by norm_num [CACHE_TTL]⟩,
    (trending_cache_hit stTrend 1000 1500 "g" rfl (by norm_num [CACHE_TTL])).1⟩

/-- Counterexample to C5 as stated: with no interactions recorded in between, a
first (cache-miss) call returns the trending ids ranked by interaction count,
`[2, 1]`, while the second call inside the TTL window — a cache hit with no
cache write — returns the same members resolved in POI-table order, `[1, 2]`:
the two lists are not identical. -/
theorem trending_cache_hit_reorders :
    ((get_trending_now stTrend 1000 "g").1.map (fun p => p.id) = [2, 1]) ∧
    ((get_trending_now (get_trending_now stTrend 1000 "g").2 1500 "g").1.map
      (fun p => p.id) = [1, 2]) ∧
    (get_trending_now (get_trending_now stTrend 1000 "g").2 1500 "g").2.trending =
      (get_trending_now stTrend 1000 "g").2.trending := by
  refine ⟨?_, ?_, ?_⟩ <;> rfl

end Recs
